import Mathlib

/-!
# go-ovn northbound API (`apis.go`): command execution and notification model

Shallow embedding of `package goovn`, file `apis.go`.

* `OvnCommand`, `Execution` and the method `OvnCommand.Execute` are translated
  from the source.  Pointers are addresses into an explicit heap, an interface
  value is `none` (nil) or the identity of an implementing object, and a call
  of an interface method is logged in the world state.
* The interfaces `OVNDBApi` and `OVNSignal` are declarations without bodies;
  they are embedded as tables of method signatures.
* Implementations of `Execution.Execute` and `OVNNotifier.Update` are not part
  of `apis.go`; where a property is about them they are modelled from the
  specification, and the definitions say so.
-/

namespace Goovn

/-! ## Data model -/

/-- The external library type `libovsdb.Operation`: the fields that identify an
operation.  The core treats an operation as opaque. -/
structure Operation where
  Op : String
  Table : String
  UUIDName : String
deriving DecidableEq, Repr

/-- Go `map[string]interface{}`: result-field name to value. -/
abbrev ResultMap := List (String × String)

/-- Identity of an object implementing the interface `Execution`. -/
abbrev ExeRef := Nat

/-- Address of an `OvnCommand` (`*OvnCommand`). -/
abbrev CmdPtr := Nat

/-- Source: `type OvnCommand struct { Operations; Exe; Results }`.
`Exe` is an interface value: `none` is the nil interface.
`Results` is a slice: `none` is the nil slice (unfilled). -/
structure OvnCommand where
  Operations : List Operation
  Exe : Option ExeRef
  Results : Option (List (List ResultMap))
deriving DecidableEq, Repr

/-- Go `len(c.Results)`: the length of a nil slice is 0. -/
def OvnCommand.resultsLen (c : OvnCommand) : Nat :=
  match c.Results with
  | none => 0
  | some rs => rs.length

/-- The heap of `OvnCommand` objects; a `CmdPtr` is an index into it. -/
abbrev Heap := List OvnCommand

/-- What a call of `Execution.Execute` leaves behind: the returned `error`
(`none` is nil), the heap, and the state owned by the executors. -/
structure ExeReturn (σ : Type) where
  err : Option String
  heap : Heap
  store : σ

/-- Behaviour of one implementation of
`Execute(cmds ...*OvnCommand) error`: the variadic argument list (each
argument a possibly nil pointer), the heap and the executors' state go in.
An implementation is taken to return: it is a total function. -/
abbrev Executor (σ : Type) := List (Option CmdPtr) → Heap → σ → ExeReturn σ

/-- One logged call of the interface method `Execution.Execute`. -/
structure ExeCall where
  target : ExeRef
  args : List (Option CmdPtr)
deriving DecidableEq, Repr

/-- Program state: heap, the executor objects, the state they own (for
example the database behind them) and the log of interface calls made. -/
structure World (σ : Type) where
  heap : Heap
  exes : ExeRef → Executor σ
  store : σ
  calls : List ExeCall

/-- Outcome of running a Go function that returns `error`. -/
inductive Outcome (σ : Type) where
  | fault : Outcome σ
  | returned : Option String → World σ → Outcome σ

/-- Dynamic dispatch `e.Execute(args...)` on a non-nil interface value. -/
def callExecute {σ : Type} (w : World σ) (e : ExeRef) (args : List (Option CmdPtr)) :
    Outcome σ :=
  let r := w.exes e args w.heap w.store
  .returned r.err
    { heap := r.heap, exes := w.exes, store := r.store,
      calls := w.calls ++ [{ target := e, args := args }] }

/-- Source:
```go
func (ocmd *OvnCommand) Execute() error {
	return ocmd.Exe.Execute()
}
```
A nil receiver faults at the field read `ocmd.Exe`; a nil interface in `Exe`
faults at the method call.  The call carries no arguments.  (An address
outside the heap does not arise in Go; the embedding faults there as well.) -/
def OvnCommand.Execute {σ : Type} (w : World σ) (ocmd : Option CmdPtr) : Outcome σ :=
  match ocmd with
  | none => .fault
  | some p =>
    match w.heap[p]? with
    | none => .fault
    | some c =>
      match c.Exe with
      | none => .fault
      | some e => callExecute w e []

/-- The shorthand as the specification words it ("equivalent to calling the
Executor with that one Command"): `ocmd.Exe.Execute(ocmd)`.  Kept beside
`OvnCommand.Execute` for comparison; it is not the source. -/
def ExecuteShorthandSpec {σ : Type} (w : World σ) (ocmd : Option CmdPtr) : Outcome σ :=
  match ocmd with
  | none => .fault
  | some p =>
    match w.heap[p]? with
    | none => .fault
    | some c =>
      match c.Exe with
      | none => .fault
      | some e => callExecute w e [some p]

/-- An executor writes to the heap only through the pointers it is handed. -/
def Executor.TouchesOnlyArgs {σ : Type} (e : Executor σ) : Prop :=
  ∀ (args : List (Option CmdPtr)) (heap : Heap) (st : σ) (p : CmdPtr),
    some p ∉ args → (e args heap st).heap[p]? = heap[p]?

/-! ## The executor behind the facade (not in `apis.go`) -/

/-- Semantics of one primitive operation on a database of type `δ`: the new
database and the rows returned, or the server's error.  External
collaborator, taken as a parameter. -/
abbrev OpSem (δ : Type) := δ → Operation → Except String (δ × List ResultMap)

/-- State behind an executor: the database and whether the transport is up. -/
structure Backend (δ : Type) where
  db : δ
  up : Bool

/-- Modelled from the spec: the transaction request handled by the database
(the server side is missing from the sources).  The operations run in order
on a working copy; the first one that fails rejects the whole request, in
which case no working copy is returned. -/
def transact {δ : Type} (sem : OpSem δ) : δ → List Operation →
    Except String (δ × List (List ResultMap))
  | db, [] => .ok (db, [])
  | db, op :: ops =>
    match sem db op with
    | .error e => .error e
    | .ok (db1, r) =>
      match transact sem db1 ops with
      | .error e => .error e
      | .ok (db2, rs) => .ok (db2, r :: rs)

/-- Dereference a batch of command pointers; `none` when one of them is nil
or dangling. -/
def derefAll (heap : Heap) : List (Option CmdPtr) → Option (List OvnCommand)
  | [] => some []
  | none :: _ => none
  | some p :: rest =>
    match heap[p]?, derefAll heap rest with
    | some c, some cs => some (c :: cs)
    | _, _ => none

/-- All operations of a batch, in batch order. -/
def allOperations : List OvnCommand → List Operation
  | [] => []
  | c :: cs => c.Operations ++ allOperations cs

/-- Modelled from the spec: writing the per-operation results back into the
commands of a batch (missing from the sources).  Each command receives the
results of its own operations, in order. -/
def fillResults : Heap → List (Option CmdPtr) → List (List ResultMap) → Heap
  | heap, [], _ => heap
  | heap, none :: rest, rs => fillResults heap rest rs
  | heap, some p :: rest, rs =>
    match heap[p]? with
    | none => fillResults heap rest rs
    | some c =>
      let n := c.Operations.length
      fillResults (heap.set p { c with Results := some (rs.take n) }) rest (rs.drop n)

/-- Modelled from the spec: the implementation of
`Execute(cmds ...*OvnCommand) error` by the executor `self` (missing from the
sources; section 4.1 of the specification).  A nil command or a command bound
to another executor is a usage error; a transport that is down is a
connectivity error; otherwise the operations of all commands form one
transaction.  On failure nothing changes; on success the database is the
committed working copy and every command of the batch has its results. -/
def specExecute {δ : Type} (sem : OpSem δ) (self : ExeRef) : Executor (Backend δ) :=
  fun args heap st =>
    match derefAll heap args with
    | none => { err := some "malformed batch", heap := heap, store := st }
    | some cmds =>
      if cmds.any (fun c => decide (c.Exe ≠ some self)) then
        { err := some "command bound to another executor", heap := heap, store := st }
      else if st.up = false then
        { err := some "transport: not connected", heap := heap, store := st }
      else
        match transact sem st.db (allOperations cmds) with
        | .error e => { err := some e, heap := heap, store := st }
        | .ok (db1, rs) =>
          { err := none, heap := fillResults heap args rs, store := { st with db := db1 } }

/-- Every operation of `ops` has been applied, in order and successfully,
leading from the first database to the second. -/
inductive AppliedAll {δ : Type} (sem : OpSem δ) : δ → List Operation → δ → Prop where
  | nil (db : δ) : AppliedAll sem db [] db
  | cons {db db1 db2 : δ} {op : Operation} {ops : List Operation} {r : List ResultMap} :
      sem db op = .ok (db1, r) → AppliedAll sem db1 ops db2 →
      AppliedAll sem db (op :: ops) db2

/-! ## Interface declarations -/

/-- One method of an interface declaration: its name and the types of its
parameters and results, spelled as in the source. -/
structure MethodSig where
  name : String
  params : List String
  results : List String
deriving DecidableEq, Repr

/-- Source: `type Execution interface`. -/
def Execution : List MethodSig :=
  [⟨"Execute", ["...*OvnCommand"], ["error"]⟩]

/-- Source: `type OVNDBApi interface`, in declaration order. -/
def OVNDBApi : List MethodSig :=
  [⟨"LSWAdd", ["string"], ["*OvnCommand", "error"]⟩,
   ⟨"LSWDel", ["string"], ["*OvnCommand", "error"]⟩,
   ⟨"LSWList", [], ["*OvnCommand", "error"]⟩,
   ⟨"LSPAdd", ["string", "string"], ["*OvnCommand", "error"]⟩,
   ⟨"LSPDel", ["string"], ["*OvnCommand", "error"]⟩,
   ⟨"LSPSetAddress", ["string", "...string"], ["*OvnCommand", "error"]⟩,
   ⟨"LSPSetPortSecurity", ["string", "...string"], ["*OvnCommand", "error"]⟩,
   ⟨"ACLAdd", ["string", "string", "string", "string", "int", "map[string]string", "bool",
      "string"], ["*OvnCommand", "error"]⟩,
   ⟨"ACLDel", ["string", "string", "string", "int", "map[string]string"],
      ["*OvnCommand", "error"]⟩,
   ⟨"ASUpdate", ["string", "[]string", "map[string]string"], ["*OvnCommand", "error"]⟩,
   ⟨"ASAdd", ["string", "[]string", "map[string]string"], ["*OvnCommand", "error"]⟩,
   ⟨"ASDel", ["string"], ["*OvnCommand", "error"]⟩,
   ⟨"LRAdd", ["string", "map[string]string"], ["*OvnCommand", "error"]⟩,
   ⟨"LRDel", ["string"], ["*OvnCommand", "error"]⟩,
   ⟨"LRPAdd", ["string", "string", "string", "[]string", "string", "map[string]string"],
      ["*OvnCommand", "error"]⟩,
   ⟨"LRPDel", ["string", "string"], ["*OvnCommand", "error"]⟩,
   ⟨"LBAdd", ["string", "string", "string", "[]string"], ["*OvnCommand", "error"]⟩,
   ⟨"LBDel", ["string"], ["*OvnCommand", "error"]⟩,
   ⟨"LBUpdate", ["string", "string", "string", "[]string"], ["*OvnCommand", "error"]⟩,
   ⟨"LSPSetDHCPv4Options", ["string", "string"], ["*OvnCommand", "error"]⟩,
   ⟨"LSPGetDHCPv4Options", ["string"], ["*DHCPOptions", "error"]⟩,
   ⟨"LSPSetDHCPv6Options", ["string", "string"], ["*OvnCommand", "error"]⟩,
   ⟨"LSPGetDHCPv6Options", ["string"], ["*DHCPOptions", "error"]⟩,
   ⟨"LSPSetOpt", ["string", "map[string]string"], ["*OvnCommand", "error"]⟩,
   ⟨"AddDHCPOptions", ["string", "map[string]string", "map[string]string"],
      ["*OvnCommand", "error"]⟩,
   ⟨"SetDHCPOptions", ["string", "map[string]string", "map[string]string"],
      ["*OvnCommand", "error"]⟩,
   ⟨"DelDHCPOptions", ["string"], ["*OvnCommand", "error"]⟩,
   ⟨"QoSAdd", ["string", "string", "int", "string", "map[string]int", "map[string]int",
      "map[string]string"], ["*OvnCommand", "error"]⟩,
   ⟨"QoSDel", ["string", "string", "int", "string"], ["*OvnCommand", "error"]⟩,
   ⟨"GetQoSBySwitch", ["string"], ["[]*QoS", "error"]⟩,
   ⟨"Execute", ["...*OvnCommand"], ["error"]⟩,
   ⟨"GetLogicalSwitches", [], ["[]*LogicalSwitch", "error"]⟩,
   ⟨"GetLogicalSwitchPortsBySwitch", ["string"], ["[]*LogicalSwitchPort", "error"]⟩,
   ⟨"GetLogicalRouterPortsByRouter", ["string"], ["[]*LogicalRouterPort", "error"]⟩,
   ⟨"GetACLsBySwitch", ["string"], ["[]*ACL", "error"]⟩,
   ⟨"GetAddressSets", [], ["[]*AddressSet", "error"]⟩,
   ⟨"GetASByName", ["string"], ["*AddressSet", "error"]⟩,
   ⟨"GetLB", ["string"], ["[]*LoadBalancer", "error"]⟩,
   ⟨"GetDHCPOptions", [], ["[]*DHCPOptions", "error"]⟩,
   ⟨"GetLogicalRouter", ["string"], ["[]*LogicalRouter", "error"]⟩,
   ⟨"GetLogicalRouters", [], ["[]*LogicalRouter", "error"]⟩,
   ⟨"SetCallBack", ["OVNSignal"], []⟩]

/-- Source: `type OVNSignal interface`, in declaration order. -/
def OVNSignal : List MethodSig :=
  [⟨"OnLogicalSwitchCreate", ["*LogicalSwitch"], []⟩,
   ⟨"OnLogicalSwitchDelete", ["*LogicalSwitch"], []⟩,
   ⟨"OnLogicalPortCreate", ["*LogicalSwitchPort"], []⟩,
   ⟨"OnLogicalPortDelete", ["*LogicalSwitchPort"], []⟩,
   ⟨"OnLogicalRouterCreate", ["*LogicalRouter"], []⟩,
   ⟨"OnLogicalRouterDelete", ["*LogicalRouter"], []⟩,
   ⟨"OnLogicalRouterPortCreate", ["*LogicalRouterPort"], []⟩,
   ⟨"OnLogicalRouterPortDelete", ["*LogicalRouterPort"], []⟩,
   ⟨"OnACLCreate", ["*ACL"], []⟩,
   ⟨"OnACLDelete", ["*ACL"], []⟩,
   ⟨"OnDHCPOptionsCreate", ["*DHCPOptions"], []⟩,
   ⟨"OnDHCPOptionsDelete", ["*DHCPOptions"], []⟩,
   ⟨"OnQoSCreate", ["*QoS"], []⟩,
   ⟨"OnQoSDelete", ["*QoS"], []⟩]

/-- Source: `type OVNNotifier interface`. -/
def OVNNotifier : List MethodSig :=
  [⟨"Update", ["interface\x7b\x7d", "libovsdb.TableUpdates"], []⟩,
   ⟨"Locked", ["[]interface\x7b\x7d"], []⟩,
   ⟨"Stolen", ["[]interface\x7b\x7d"], []⟩,
   ⟨"Echo", ["[]interface\x7b\x7d"], []⟩,
   ⟨"Disconnected", ["*libovsdb.OvsdbClient"], []⟩]

/-- The entity views that queries decode rows into (the types named in the
result positions of the source). -/
def entityViews : List String :=
  ["LogicalSwitch", "LogicalSwitchPort", "LogicalRouter", "LogicalRouterPort", "ACL",
   "AddressSet", "LoadBalancer", "QoS", "DHCPOptions"]

/-- A `Get*` method: the name starts with `Get`. -/
def MethodSig.isGet (m : MethodSig) : Bool := "Get".data.isPrefixOf m.name.data

/-- A method with `Get` anywhere in its name, as in `LSPGetDHCPv4Options`. -/
def MethodSig.mentionsGet (m : MethodSig) : Bool :=
  m.name.data.tails.any fun rest => "Get".data.isPrefixOf rest

/-- A `List*` method: the name starts with `List`, or ends with it as in `LSWList`. -/
def MethodSig.isList (m : MethodSig) : Bool :=
  "List".data.isPrefixOf m.name.data || "List".data.isSuffixOf m.name.data

/-- The query intents of the facade as the specification names them. -/
def MethodSig.isQueryIntent (m : MethodSig) : Bool := m.isGet || m.isList

/-- The method returns `(*OvnCommand, error)`: a command still to be executed. -/
def MethodSig.returnsCommand (m : MethodSig) : Bool :=
  decide (m.results = ["*OvnCommand", "error"])

/-- The method returns a sequence of entity views, `([]*T, error)`. -/
def MethodSig.returnsEntitySeq (m : MethodSig) : Bool :=
  entityViews.any fun t => decide (m.results = ["[]*" ++ t, "error"])

/-- The method returns one entity view, `(*T, error)`. -/
def MethodSig.returnsEntity (m : MethodSig) : Bool :=
  entityViews.any fun t => decide (m.results = ["*" ++ t, "error"])

/-- The create/delete callback pair of an entity kind `k` whose view is `t`. -/
def callbackPair (k t : String) : List MethodSig :=
  [⟨"On" ++ k ++ "Create", ["*" ++ t], []⟩, ⟨"On" ++ k ++ "Delete", ["*" ++ t], []⟩]

/-- The callback pairs of a list of entity kinds, in order. -/
def callbackPairs : List (String × String) → List MethodSig
  | [] => []
  | (k, t) :: rest => callbackPair k t ++ callbackPairs rest

/-- The entity kinds that have callbacks, each with its entity view. -/
def signalKinds : List (String × String) :=
  [("LogicalSwitch", "LogicalSwitch"), ("LogicalPort", "LogicalSwitchPort"),
   ("LogicalRouter", "LogicalRouter"), ("LogicalRouterPort", "LogicalRouterPort"),
   ("ACL", "ACL"), ("DHCPOptions", "DHCPOptions"), ("QoS", "QoS")]

/-! ## Notification dispatch (not in `apis.go`) -/

/-- The entity kinds that have a create/delete callback pair in `OVNSignal`. -/
inductive EntityKind where
  | LogicalSwitch | LogicalPort | LogicalRouter | LogicalRouterPort | ACL | DHCPOptions | QoS
deriving DecidableEq, Repr

/-- The two transitions surfaced to a subscriber. -/
inductive Direction where
  | Create | Delete
deriving DecidableEq, Repr

/-- A row snapshot: column name to value (`libovsdb.Row`). -/
abbrev Row := List (String × String)

/-- One touched row of a table update (`libovsdb.RowUpdate` with its row
identifier): the snapshots before and after, `none` when the row is absent. -/
structure RowUpdate where
  uuid : String
  old : Option Row
  new : Option Row
deriving DecidableEq, Repr

/-- One table-update event (`libovsdb.TableUpdates`): for each table named,
the rows touched, in the order the event lists them. -/
abbrev TableUpdates := List (String × List RowUpdate)

/-- One invocation of an `OVNSignal` method, `On<kind><dir>`, with the row it
was decoded from. -/
structure SignalCall where
  kind : EntityKind
  dir : Direction
  uuid : String
  row : Row
deriving DecidableEq, Repr

/-- Modelled from the spec: the per-row step of the dispatcher (the body of
`Update` is missing from the sources).  A row absent before and present after
is a creation, a row present before and absent after is a deletion; a row
present in both, or in neither, raises no callback. -/
def dispatchRows (k : EntityKind) : List RowUpdate → List SignalCall
  | [] => []
  | u :: us =>
    match u.old, u.new with
    | none, some r => ⟨k, .Create, u.uuid, r⟩ :: dispatchRows k us
    | some r, none => ⟨k, .Delete, u.uuid, r⟩ :: dispatchRows k us
    | _, _ => dispatchRows k us

/-- Modelled from the spec: the per-table step of the dispatcher (missing from
the sources).  `tableKind` is the schema mapping from a table name to the
entity kind decoded from it; tables of no such kind raise nothing. -/
def dispatchTables (tableKind : String → Option EntityKind) : TableUpdates → List SignalCall
  | [] => []
  | (t, rows) :: rest =>
    (match tableKind t with
      | none => []
      | some k => dispatchRows k rows) ++ dispatchTables tableKind rest

/-- Modelled from the spec: `OVNNotifier.Update` (its implementation is
missing from the sources; section 4.3 of the specification).  `signal` is the
subscriber captured when the event starts; with none registered the event is
dropped.  The result is the sequence of callbacks invoked. -/
def OVNNotifier.Update (signal : Option Nat) (tableKind : String → Option EntityKind)
    (tableUpdates : TableUpdates) : List SignalCall :=
  match signal with
  | none => []
  | some _ => dispatchTables tableKind tableUpdates

/-- The callbacks raised by a sequence of events, handed to `Update` one
after the other with the same subscriber. -/
def dispatchAll (signal : Option Nat) (tableKind : String → Option EntityKind) :
    List TableUpdates → List SignalCall
  | [] => []
  | ev :: evs => OVNNotifier.Update signal tableKind ev ++ dispatchAll signal tableKind evs

/-- Number of `On<k><d>` calls in a callback sequence. -/
def countCalls (k : EntityKind) (d : Direction) (calls : List SignalCall) : Nat :=
  calls.countP fun c => decide (c.kind = k ∧ c.dir = d)

/-- The row updates of entity kind `k` listed by a sequence of events. -/
def rowsOfKind (tableKind : String → Option EntityKind) (k : EntityKind)
    (evs : List TableUpdates) : List RowUpdate :=
  (evs.flatMap id).flatMap fun tr => if tableKind tr.1 = some k then tr.2 else []

/-- The row is absent before and present after. -/
def RowUpdate.isCreated (u : RowUpdate) : Bool := u.old.isNone && u.new.isSome

/-- The row is present before and absent after. -/
def RowUpdate.isDeleted (u : RowUpdate) : Bool := u.old.isSome && u.new.isNone

/-- The row is present both before and after: a pure modification. -/
def RowUpdate.isModified (u : RowUpdate) : Bool := u.old.isSome && u.new.isSome

/-- The row makes the transition `d`. -/
def RowUpdate.makes (d : Direction) (u : RowUpdate) : Bool :=
  match d with
  | .Create => u.isCreated
  | .Delete => u.isDeleted

/-! ## A concrete scenario -/

/-- A toy database: the names of the rows inserted so far. -/
def demoSem : OpSem (List String) := fun db op =>
  if op.Op = "insert" then
    if op.UUIDName ∈ db then .error "constraint violation"
    else .ok (db ++ [op.UUIDName], [[("uuid", op.UUIDName)]])
  else .error "unsupported operation"

/-- The operation built for "add switch sw1". -/
def demoOp : Operation := { Op := "insert", Table := "Logical_Switch", UUIDName := "sw1" }

/-- A freshly built command: one operation, bound to executor 0, no results. -/
def demoCmd : OvnCommand := { Operations := [demoOp], Exe := some 0, Results := none }

/-- A command whose executor was never set. -/
def unboundCmd : OvnCommand := { Operations := [demoOp], Exe := none, Results := none }

/-- A second command bound to executor 0, with other operations and results. -/
def otherCmd : OvnCommand :=
  { Operations := [], Exe := some 0, Results := some [[[("uuid", "x")]]] }

/-- One executor (the modelled one) over the toy database, three commands. -/
def demoWorld (up : Bool) : World (Backend (List String)) :=
  { heap := [demoCmd, unboundCmd, otherCmd],
    exes := fun r => specExecute demoSem r,
    store := { db := [], up := up },
    calls := [] }

/-- The scenario with the transport down, after one failed executor call
with the empty batch. -/
def demoFailedWorld : World (Backend (List String)) :=
  { heap := (demoWorld false).heap, exes := (demoWorld false).exes,
    store := (demoWorld false).store, calls := [{ target := 0, args := [] }] }

/-- A schema mapping for the scenario. -/
def demoTableKind (t : String) : Option EntityKind :=
  if t = "Logical_Switch" then some .LogicalSwitch
  else if t = "ACL" then some .ACL
  else none

/-- Two events: a switch is created and another modified; then the first
switch is deleted, an ACL is created and an address set is created. -/
def demoEvents : List TableUpdates :=
  [[("Logical_Switch",
      [⟨"u1", none, some [("name", "sw1")]⟩,
       ⟨"u2", some [("name", "sw2")], some [("name", "sw2b")]⟩])],
   [("Logical_Switch", [⟨"u1", some [("name", "sw1")], none⟩]),
    ("ACL", [⟨"a1", none, some [("action", "drop")]⟩]),
    ("Address_Set", [⟨"s1", none, some [("name", "as1")]⟩])]]

/-! ## Lemmas on command execution -/

theorem Execute_eq_callExecute {σ : Type} (w : World σ) (p : CmdPtr) (c : OvnCommand)
    (e : ExeRef) (hc : w.heap[p]? = some c) (he : c.Exe = some e) :
    OvnCommand.Execute w (some p) = callExecute w e [] := by
  simp [OvnCommand.Execute, hc, he]

theorem Execute_fault_of_nil_Exe {σ : Type} (w : World σ) (p : CmdPtr) (c : OvnCommand)
    (hc : w.heap[p]? = some c) (he : c.Exe = none) :
    OvnCommand.Execute w (some p) = .fault := by
  simp [OvnCommand.Execute, hc, he]

theorem fillResults_getElem?_of_not_mem (args : List (Option CmdPtr)) :
    ∀ (heap : Heap) (rs : List (List ResultMap)) (p : CmdPtr),
      some p ∉ args → (fillResults heap args rs)[p]? = heap[p]? := by
  induction args with
  | nil => intro heap rs p _; rfl
  | cons a rest ih =>
    intro heap rs p hp
    have hrest : some p ∉ rest := fun h => hp (List.mem_cons_of_mem _ h)
    cases a with
    | none => simpa [fillResults] using ih heap rs p hrest
    | some q =>
      have hqp : q ≠ p := fun h => hp (by simp [h])
      cases hq : heap[q]? with
      | none => simpa [fillResults, hq] using ih heap rs p hrest
      | some c =>
        simp only [fillResults, hq]
        rw [ih _ _ p hrest]
        exact List.getElem?_set_ne hqp

theorem specExecute_touchesOnlyArgs {δ : Type} (sem : OpSem δ) (self : ExeRef) :
    (specExecute sem self).TouchesOnlyArgs := by
  intro args heap st p hp
  unfold specExecute
  split
  · rfl
  · split
    · rfl
    · split
      · rfl
      · split
        · rfl
        · exact fillResults_getElem?_of_not_mem args heap _ p hp

theorem specExecute_error_unchanged {δ : Type} (sem : OpSem δ) (self : ExeRef)
    (args : List (Option CmdPtr)) (heap : Heap) (st : Backend δ)
    (h : (specExecute sem self args heap st).err ≠ none) :
    (specExecute sem self args heap st).heap = heap ∧
    (specExecute sem self args heap st).store = st := by
  revert h
  unfold specExecute
  split
  · intro _; exact ⟨rfl, rfl⟩
  · split
    · intro _; exact ⟨rfl, rfl⟩
    · split
      · intro _; exact ⟨rfl, rfl⟩
      · split
        · intro _; exact ⟨rfl, rfl⟩
        · intro h; exact absurd rfl h

/-- The failure guarantee does not hinge on the argument list: the shorthand
as the specification words it leaves heap and store alone as well when the
modelled executor fails. -/
theorem ExecuteShorthandSpec_error_unchanged {δ : Type} (sem : OpSem δ)
    (w w1 : World (Backend δ)) (p : CmdPtr) (c : OvnCommand) (e : ExeRef) (msg : String)
    (hc : w.heap[p]? = some c) (he : c.Exe = some e) (hexe : w.exes e = specExecute sem e)
    (hrun : ExecuteShorthandSpec w (some p) = .returned (some msg) w1) :
    w1.heap = w.heap ∧ w1.store = w.store := by
  simp only [ExecuteShorthandSpec, hc, he, callExecute, Outcome.returned.injEq] at hrun
  obtain ⟨herr, hw⟩ := hrun
  subst hw
  rw [hexe] at herr ⊢
  exact specExecute_error_unchanged sem e _ w.heap w.store (by simp [herr])

theorem derefAll_length (heap : Heap) (args : List (Option CmdPtr)) :
    ∀ cmds, derefAll heap args = some cmds → cmds.length = args.length := by
  induction args with
  | nil => intro cmds h; simp [derefAll] at h; simp [← h]
  | cons a rest ih =>
    intro cmds h
    cases a with
    | none => simp [derefAll] at h
    | some q =>
      cases hq : heap[q]? with
      | none => simp [derefAll, hq] at h
      | some c =>
        cases hr : derefAll heap rest with
        | none => simp [derefAll, hq, hr] at h
        | some cs =>
          simp [derefAll, hq, hr] at h
          subst h
          simp [ih cs hr]

theorem transact_ok_appliedAll {δ : Type} (sem : OpSem δ) (ops : List Operation) :
    ∀ (db db1 : δ) (rs : List (List ResultMap)),
      transact sem db ops = .ok (db1, rs) → AppliedAll sem db ops db1 ∧ rs.length = ops.length := by
  induction ops with
  | nil =>
    intro db db1 rs h
    simp only [transact, Except.ok.injEq, Prod.mk.injEq] at h
    obtain ⟨h1, h2⟩ := h
    subst h1; subst h2
    exact ⟨AppliedAll.nil db, rfl⟩
  | cons op ops ih =>
    intro db db1 rs h
    unfold transact at h
    cases hs : sem db op with
    | error e => simp [hs] at h
    | ok v =>
      obtain ⟨dbm, r⟩ := v
      simp only [hs] at h
      cases ht : transact sem dbm ops with
      | error e => simp [ht] at h
      | ok v2 =>
        obtain ⟨db2, rs2⟩ := v2
        simp only [ht, Except.ok.injEq, Prod.mk.injEq] at h
        obtain ⟨h1, h2⟩ := h
        subst h1; subst h2
        obtain ⟨ha, hl⟩ := ih dbm db2 rs2 ht
        exact ⟨AppliedAll.cons hs ha, by simp [hl]⟩

/-! ## Lemmas on notification dispatch -/

theorem countCalls_append (k : EntityKind) (d : Direction) (xs ys : List SignalCall) :
    countCalls k d (xs ++ ys) = countCalls k d xs + countCalls k d ys := by
  simp [countCalls, List.countP_append]

theorem countCalls_nil (k : EntityKind) (d : Direction) : countCalls k d [] = 0 := rfl

theorem countCalls_cons (k : EntityKind) (d : Direction) (c : SignalCall)
    (cs : List SignalCall) :
    countCalls k d (c :: cs) =
      countCalls k d cs + if c.kind = k ∧ c.dir = d then 1 else 0 := by
  unfold countCalls
  rw [List.countP_cons]
  by_cases h : c.kind = k ∧ c.dir = d <;> simp [h]

theorem countCalls_dispatchRows (k k1 : EntityKind) (d : Direction) (rows : List RowUpdate) :
    countCalls k d (dispatchRows k1 rows) =
      if k1 = k then rows.countP (RowUpdate.makes d) else 0 := by
  induction rows with
  | nil => simp [dispatchRows, countCalls_nil]
  | cons u us ih =>
    rcases u with ⟨id, old, new⟩
    by_cases hk : k1 = k
    · simp only [hk, if_true] at ih
      cases old <;> cases new <;> cases d <;>
        simp [dispatchRows, countCalls_cons, List.countP_cons, ih, hk, RowUpdate.makes,
          RowUpdate.isCreated, RowUpdate.isDeleted]
    · simp only [hk, if_false] at ih
      cases old <;> cases new <;> cases d <;>
        simp [dispatchRows, countCalls_cons, List.countP_cons, ih, hk, RowUpdate.makes,
          RowUpdate.isCreated, RowUpdate.isDeleted]

theorem countCalls_dispatchTables (tableKind : String → Option EntityKind) (k : EntityKind)
    (d : Direction) (tu : TableUpdates) :
    countCalls k d (dispatchTables tableKind tu) =
      (tu.flatMap fun tr => if tableKind tr.1 = some k then tr.2 else []).countP
        (RowUpdate.makes d) := by
  induction tu with
  | nil => simp [dispatchTables, countCalls]
  | cons tr rest ih =>
    rcases tr with ⟨t, rows⟩
    simp only [dispatchTables, countCalls_append, ih, List.flatMap_cons, List.countP_append]
    congr 1
    cases hk : tableKind t with
    | none => simp [countCalls]
    | some k1 =>
      simp only [countCalls_dispatchRows, Option.some.injEq]
      by_cases h : k1 = k <;> simp [h]

theorem countCalls_dispatchAll (tableKind : String → Option EntityKind) (s : Nat)
    (k : EntityKind) (d : Direction) (evs : List TableUpdates) :
    countCalls k d (dispatchAll (some s) tableKind evs) =
      (rowsOfKind tableKind k evs).countP (RowUpdate.makes d) := by
  induction evs with
  | nil => simp [dispatchAll, rowsOfKind, countCalls]
  | cons ev evs ih =>
    simp only [dispatchAll, OVNNotifier.Update, countCalls_append, ih,
      countCalls_dispatchTables]
    simp [rowsOfKind, List.flatMap_append, List.countP_append]

theorem dispatchRows_modified (k : EntityKind) (rows : List RowUpdate)
    (h : ∀ u ∈ rows, u.isModified = true) : dispatchRows k rows = [] := by
  induction rows with
  | nil => rfl
  | cons u us ih =>
    have hu := h u (List.mem_cons_self _ _)
    have hus := ih (fun v hv => h v (List.mem_cons_of_mem _ hv))
    rcases u with ⟨id, old, new⟩
    cases old <;> cases new <;> simp_all [dispatchRows, RowUpdate.isModified]

theorem dispatchTables_modified (tableKind : String → Option EntityKind) (tu : TableUpdates)
    (h : ∀ tr ∈ tu, ∀ u ∈ tr.2, u.isModified = true) : dispatchTables tableKind tu = [] := by
  induction tu with
  | nil => rfl
  | cons tr rest ih =>
    rcases tr with ⟨t, rows⟩
    have hrows := fun k => dispatchRows_modified k rows (h (t, rows) (List.mem_cons_self _ _))
    have hrest := ih (fun x hx => h x (List.mem_cons_of_mem _ hx))
    cases hk : tableKind t <;> simp [dispatchTables, hk, hrows, hrest]

/-! ## Lemmas on the interface tables and the scenario -/

theorem callbackPairs_length (kinds : List (String × String)) :
    (callbackPairs kinds).length = 2 * kinds.length := by
  induction kinds with
  | nil => rfl
  | cons a rest ih =>
    rcases a with ⟨k, t⟩
    simp only [callbackPairs, callbackPair, List.length_append, List.length_cons,
      List.length_nil, ih]
    omega

/-- The modelled executor at work: one command commits; the same command
twice in one batch is rejected as a whole, although its first insert succeeds
on the working copy. -/
theorem specExecute_demo :
    (specExecute demoSem 0 [some 0] (demoWorld true).heap (demoWorld true).store).err = none ∧
    (specExecute demoSem 0 [some 0] (demoWorld true).heap (demoWorld true).store).store.db
      = ["sw1"] ∧
    (specExecute demoSem 0 [some 0, some 0] (demoWorld true).heap (demoWorld true).store).err
      = some "constraint violation" ∧
    (specExecute demoSem 0 [some 0, some 0] (demoWorld true).heap (demoWorld true).store).store.db
      = [] := by
  decide

/-- The modelled dispatcher at work on the two events of the scenario. -/
theorem dispatchAll_demo :
    dispatchAll (some 0) demoTableKind demoEvents =
      [⟨.LogicalSwitch, .Create, "u1", [("name", "sw1")]⟩,
       ⟨.LogicalSwitch, .Delete, "u1", [("name", "sw1")]⟩,
       ⟨.ACL, .Create, "a1", [("action", "drop")]⟩] ∧
    dispatchAll none demoTableKind demoEvents = [] := by
  decide

/-! ## The claims -/

/-- C1: the zero-argument `c.Execute()` should hand its executor the batch
made of `c` alone.  At the freshly built command of the scenario the source
calls the executor with the empty batch and the database stays empty, whereas
the shorthand the specification describes calls it with `[c]` and the switch
is inserted: the two differ. -/
theorem Execute_omits_receiver_from_batch :
    (∃ w1, OvnCommand.Execute (demoWorld true) (some 0) = .returned none w1 ∧
        w1.calls = [{ target := 0, args := [] }] ∧ w1.store.db = []) ∧
    (∃ w2, ExecuteShorthandSpec (demoWorld true) (some 0) = .returned none w2 ∧
        w2.calls = [{ target := 0, args := [some 0] }] ∧ w2.store.db = ["sw1"]) :=
  ⟨⟨_, rfl, rfl, rfl⟩, ⟨_, rfl, rfl, rfl⟩⟩

/-- C2: after a successful `c.Execute()` the results of `c` should hold one
entry per operation.  At the freshly built command of the scenario (one
operation, nil results) the source returns nil and the results are still nil,
of length 0; the shorthand the specification describes leaves one entry. -/
theorem Execute_success_leaves_results_unfilled :
    demoCmd.Operations.length = 1 ∧
    (∃ w1, OvnCommand.Execute (demoWorld true) (some 0) = .returned none w1 ∧
        w1.heap[0]? = some demoCmd ∧ demoCmd.Results = none ∧ demoCmd.resultsLen = 0) ∧
    (∃ w2 c2, ExecuteShorthandSpec (demoWorld true) (some 0) = .returned none w2 ∧
        w2.heap[0]? = some c2 ∧ c2.resultsLen = 1) :=
  ⟨rfl, ⟨_, rfl, rfl, rfl, rfl⟩, ⟨_, _, rfl, rfl, rfl⟩⟩

/-- C3: for a command at `p` bound to executor `e`, `Execute` returns exactly
the error value that the executor call returns (so it fails if and only if that
call fails), and the executor is called exactly once: the call log grows by
the single entry for `e`, and heap and store are the ones that call left. -/
theorem Execute_propagates_executor_error {σ : Type} (w : World σ) (p : CmdPtr)
    (c : OvnCommand) (e : ExeRef) (hc : w.heap[p]? = some c) (he : c.Exe = some e) :
    ∃ err w1, OvnCommand.Execute w (some p) = .returned err w1 ∧
      err = (w.exes e [] w.heap w.store).err ∧
      (err.isSome = true ↔ (w.exes e [] w.heap w.store).err.isSome = true) ∧
      w1.calls = w.calls ++ [{ target := e, args := [] }] ∧
      w1.calls.length = w.calls.length + 1 ∧
      w1.heap = (w.exes e [] w.heap w.store).heap ∧
      w1.store = (w.exes e [] w.heap w.store).store := by
  refine ⟨_, _, Execute_eq_callExecute w p c e hc he, rfl, Iff.rfl, rfl, ?_, rfl, rfl⟩
  simp

/-- Witness of C3: the bound command of the scenario with the transport down. -/
theorem Execute_propagates_executor_error_witness :
    ∃ err w1, OvnCommand.Execute (demoWorld false) (some 0) = .returned err w1 ∧
      err = ((demoWorld false).exes 0 [] (demoWorld false).heap (demoWorld false).store).err ∧
      (err.isSome = true ↔
        ((demoWorld false).exes 0 [] (demoWorld false).heap (demoWorld false).store).err.isSome
          = true) ∧
      w1.calls = (demoWorld false).calls ++ [{ target := 0, args := [] }] ∧
      w1.calls.length = (demoWorld false).calls.length + 1 ∧
      w1.heap = ((demoWorld false).exes 0 [] (demoWorld false).heap (demoWorld false).store).heap ∧
      w1.store =
        ((demoWorld false).exes 0 [] (demoWorld false).heap (demoWorld false).store).store :=
  Execute_propagates_executor_error (demoWorld false) 0 demoCmd 0 rfl rfl

/-- C4: with the executor of section 4.1 bound to the command, when
`c.Execute()` returns an error the result slot is left as it was: `Results`
after the call equals `Results` before it, `Operations` and `Exe` are unchanged
as well, and so are the whole heap and the database behind the executor. -/
theorem Execute_error_leaves_command {δ : Type} (sem : OpSem δ)
    (w w1 : World (Backend δ)) (p : CmdPtr) (c : OvnCommand) (e : ExeRef) (msg : String)
    (hc : w.heap[p]? = some c) (he : c.Exe = some e)
    (hexe : w.exes e = specExecute sem e)
    (hrun : OvnCommand.Execute w (some p) = .returned (some msg) w1) :
    (∃ c1, w1.heap[p]? = some c1 ∧ c1.Results = c.Results ∧
      c1.Operations = c.Operations ∧ c1.Exe = c.Exe) ∧
    w1.heap = w.heap ∧ w1.store = w.store := by
  rw [Execute_eq_callExecute w p c e hc he] at hrun
  simp only [callExecute, Outcome.returned.injEq] at hrun
  obtain ⟨herr, hw⟩ := hrun
  subst hw
  rw [hexe] at herr
  have hun := specExecute_error_unchanged sem e [] w.heap w.store (by simp [herr])
  have hheap : (w.exes e [] w.heap w.store).heap = w.heap := by rw [hexe]; exact hun.1
  have hstore : (w.exes e [] w.heap w.store).store = w.store := by rw [hexe]; exact hun.2
  refine ⟨⟨c, ?_, rfl, rfl, rfl⟩, hheap, hstore⟩
  show (w.exes e [] w.heap w.store).heap[p]? = some c
  rw [hheap, hc]

/-- Witness of C4: the scenario with the transport down, where the call fails. -/
theorem Execute_error_leaves_command_witness :
    OvnCommand.Execute (demoWorld false) (some 0) =
      .returned (some "transport: not connected") demoFailedWorld ∧
    (∃ c1, demoFailedWorld.heap[0]? = some c1 ∧ c1.Results = demoCmd.Results ∧
      c1.Operations = demoCmd.Operations ∧ c1.Exe = demoCmd.Exe) ∧
    demoFailedWorld.heap = (demoWorld false).heap ∧
    demoFailedWorld.store = (demoWorld false).store :=
  ⟨rfl, Execute_error_leaves_command demoSem (demoWorld false) demoFailedWorld
    0 demoCmd 0 "transport: not connected" rfl rfl rfl rfl⟩

/-- C5: one `Execute(cmds...)` call of the executor is all-or-nothing.  If it
returns an error, the database (and the heap) are exactly as before; if it
returns nil, the batch dereferences to commands whose operations, all of them
and in batch order, have been applied to reach the new database. -/
theorem specExecute_atomic {δ : Type} (sem : OpSem δ) (self : ExeRef)
    (args : List (Option CmdPtr)) (heap : Heap) (st : Backend δ) :
    ((specExecute sem self args heap st).err ≠ none →
        (specExecute sem self args heap st).store = st ∧
        (specExecute sem self args heap st).heap = heap) ∧
    ((specExecute sem self args heap st).err = none →
        ∃ cmds, derefAll heap args = some cmds ∧ cmds.length = args.length ∧
          AppliedAll sem st.db (allOperations cmds)
            (specExecute sem self args heap st).store.db) := by
  unfold specExecute
  cases hd : derefAll heap args with
  | none => simp
  | some cmds =>
    have hlen : cmds.length = args.length := derefAll_length heap args cmds hd
    simp only []
    split
    · exact ⟨fun _ => ⟨rfl, rfl⟩, fun h => by simp at h⟩
    · split
      · exact ⟨fun _ => ⟨rfl, rfl⟩, fun h => by simp at h⟩
      · split
        · exact ⟨fun _ => ⟨rfl, rfl⟩, fun h => by simp at h⟩
        · next db1 rs ht =>
          exact ⟨fun h => absurd rfl h,
            fun _ => ⟨cmds, rfl, hlen, (transact_ok_appliedAll sem _ _ _ _ ht).1⟩⟩

/-- C6, as stated, fails at `LSWList`: it is a query intent of the facade by
its name, and it is declared to return `(*OvnCommand, error)`, a command, not
a sequence of entity views. -/
theorem LSWList_returns_command :
    (⟨"LSWList", [], ["*OvnCommand", "error"]⟩ : MethodSig) ∈ OVNDBApi ∧
    MethodSig.isQueryIntent ⟨"LSWList", [], ["*OvnCommand", "error"]⟩ = true ∧
    MethodSig.returnsCommand ⟨"LSWList", [], ["*OvnCommand", "error"]⟩ = true ∧
    MethodSig.returnsEntitySeq ⟨"LSWList", [], ["*OvnCommand", "error"]⟩ = false ∧
    MethodSig.returnsEntity ⟨"LSWList", [], ["*OvnCommand", "error"]⟩ = false := by
  decide

/-- C6, amended: every `Get*` method of the facade is declared to return
entity views directly, never a command: a sequence `([]*T, error)`, or the one
view `(*AddressSet, error)` for `GetASByName`; the same holds for the two
further methods with `Get` in their name, which return `(*DHCPOptions, error)`.
The only `List*` method is `LSWList`, and it is declared to return
`(*OvnCommand, error)`. -/
theorem query_methods_declared_results :
    (∀ m ∈ OVNDBApi, m.isGet = true →
        m.returnsCommand = false ∧
        (m.returnsEntitySeq = true ∨ (m.name = "GetASByName" ∧ m.returnsEntity = true))) ∧
    (∀ m ∈ OVNDBApi, m.mentionsGet = true →
        m.returnsCommand = false ∧ (m.returnsEntitySeq = true ∨ m.returnsEntity = true)) ∧
    (∀ m ∈ OVNDBApi, m.isList = true → m.name = "LSWList" ∧ m.returnsCommand = true) ∧
    (OVNDBApi.filter MethodSig.isGet).length = 11 ∧
    (OVNDBApi.filter MethodSig.mentionsGet).length = 13 := by
  decide

/-- C7, as stated, fails: `OVNSignal` declares fourteen methods, not sixteen,
and it is not the list of callback pairs of any eight entity kinds. -/
theorem OVNSignal_not_eight_pairs :
    OVNSignal.length = 14 ∧ OVNSignal.length ≠ 16 ∧
    ¬ ∃ kinds : List (String × String), kinds.length = 8 ∧ OVNSignal = callbackPairs kinds := by
  refine ⟨by decide, by decide, ?_⟩
  rintro ⟨kinds, hlen, heq⟩
  have h := congrArg List.length heq
  rw [callbackPairs_length, hlen] at h
  revert h
  decide

/-- C7, amended: `OVNSignal` holds exactly seven create/delete callback pairs
(fourteen methods), one `On<Entity>Create` and one `On<Entity>Delete` for each
of seven distinct entity kinds, both taking the same entity view. -/
theorem OVNSignal_seven_pairs :
    OVNSignal = callbackPairs signalKinds ∧ signalKinds.length = 7 ∧
    (signalKinds.map Prod.fst).Nodup ∧ OVNSignal.length = 14 := by
  decide

/-- C8: for every sequence of table-update events handed to `Update` with a
registered subscriber and every entity kind `k`, the number of `On<k>Create`
calls is the number of listed rows of kind `k` absent before and present
after, the number of `On<k>Delete` calls is the number of those present before
and absent after, and an event whose rows are all present both before and
after raises no callback at all. -/
theorem Update_notification_counts (tableKind : String → Option EntityKind) (s : Nat)
    (evs : List TableUpdates) (k : EntityKind) :
    countCalls k .Create (dispatchAll (some s) tableKind evs) =
        (rowsOfKind tableKind k evs).countP RowUpdate.isCreated ∧
    countCalls k .Delete (dispatchAll (some s) tableKind evs) =
        (rowsOfKind tableKind k evs).countP RowUpdate.isDeleted ∧
    (∀ tu : TableUpdates, (∀ tr ∈ tu, ∀ u ∈ tr.2, u.isModified = true) →
        OVNNotifier.Update (some s) tableKind tu = []) :=
  ⟨countCalls_dispatchAll tableKind s k .Create evs,
    countCalls_dispatchAll tableKind s k .Delete evs,
    fun tu h => dispatchTables_modified tableKind tu h⟩

/-- C9: the outcome of `Execute` depends on the bound executor only.  Two
commands with the same `Exe`, whatever their operations and results, give the
same outcome from the same state, and for a non-nil `Exe` that outcome is the
executor call with the empty batch. -/
theorem Execute_depends_only_on_Exe {σ : Type} (w : World σ) (p1 p2 : CmdPtr)
    (c1 c2 : OvnCommand) (h1 : w.heap[p1]? = some c1) (h2 : w.heap[p2]? = some c2)
    (hexe : c1.Exe = c2.Exe) :
    OvnCommand.Execute w (some p1) = OvnCommand.Execute w (some p2) ∧
    ∀ e, c1.Exe = some e →
      OvnCommand.Execute w (some p1) = callExecute w e [] ∧
      OvnCommand.Execute w (some p2) = callExecute w e [] := by
  constructor
  · simp [OvnCommand.Execute, h1, h2, hexe]
  · intro e he
    exact ⟨Execute_eq_callExecute w p1 c1 e h1 he,
      Execute_eq_callExecute w p2 c2 e h2 (hexe ▸ he)⟩

/-- Witness of C9: two commands of the scenario bound to executor 0 that
differ in operations and in results. -/
theorem Execute_depends_only_on_Exe_witness :
    (demoCmd.Operations ≠ otherCmd.Operations ∧ demoCmd.Results ≠ otherCmd.Results) ∧
    OvnCommand.Execute (demoWorld true) (some 0) = OvnCommand.Execute (demoWorld true) (some 2) ∧
    OvnCommand.Execute (demoWorld true) (some 0) = callExecute (demoWorld true) 0 [] ∧
    OvnCommand.Execute (demoWorld true) (some 2) = callExecute (demoWorld true) 0 [] :=
  ⟨⟨by decide, by decide⟩,
    (Execute_depends_only_on_Exe (demoWorld true) 0 2 demoCmd otherCmd rfl rfl rfl).1,
    (Execute_depends_only_on_Exe (demoWorld true) 0 2 demoCmd otherCmd rfl rfl rfl).2 0 rfl⟩

/-- C10: for a non-nil receiver whose `Exe` is non-nil, `Execute` does not
fault and returns what the executor call returns; with a nil `Exe` (and with a
nil receiver) it faults instead of returning an error. -/
theorem Execute_faults_iff_unbound {σ : Type} (w : World σ) (p : CmdPtr) (c : OvnCommand)
    (hc : w.heap[p]? = some c) :
    (∀ e, c.Exe = some e →
        OvnCommand.Execute w (some p) ≠ .fault ∧
        ∃ w1, OvnCommand.Execute w (some p) =
          .returned (w.exes e [] w.heap w.store).err w1) ∧
    (c.Exe = none → OvnCommand.Execute w (some p) = .fault) ∧
    OvnCommand.Execute w none = .fault := by
  refine ⟨fun e he => ?_, fun he => Execute_fault_of_nil_Exe w p c hc he, rfl⟩
  rw [Execute_eq_callExecute w p c e hc he]
  exact ⟨by simp [callExecute], _, rfl⟩

/-- Witness of C10: in the scenario the bound command returns and the
unbound command faults. -/
theorem Execute_faults_iff_unbound_witness :
    OvnCommand.Execute (demoWorld true) (some 0) ≠ .fault ∧
    OvnCommand.Execute (demoWorld true) (some 1) = .fault :=
  ⟨((Execute_faults_iff_unbound (demoWorld true) 0 demoCmd rfl).1 0 rfl).1,
    (Execute_faults_iff_unbound (demoWorld true) 1 unboundCmd rfl).2.1 rfl⟩

end Goovn
